import Mathlib

/-!
Verification of the subreddit-scanner design against its implementation.

The development shallowly embeds the pieces of the source relevant to the
stated properties: the sliding-window rate limiter (`rate_limiter.py`), the
retry loop and classification logic of the API client (`reddit_client.py`),
the subreddits table and its operations (`database.py`), and the per-item
orchestration steps of the scanner (`scanner.py`).  Timestamps are modelled
as exact rationals (a simulated clock), network traffic as an oracle of
per-attempt outcomes, and the SQLite table as an association list keyed by
subreddit name.
-/

namespace Scanner

/-! ## Rate limiter (`rate_limiter.py`, `SlidingWindowRateLimiter`) -/

/-- Capacities handed to `SlidingWindowRateLimiter.__init__`
(requests per 60 s, per 10 s and per 1 s). -/
structure RLConfig where
  requests_per_minute : Nat
  requests_per_10s : Nat
  requests_per_1s : Nat
deriving DecidableEq, Repr

/-- Mutable state of `SlidingWindowRateLimiter`: the three timestamp deques
(oldest first) and the statistics counters. -/
structure RLState where
  window_60s : List ℚ
  window_10s : List ℚ
  window_1s : List ℚ
  total_requests : Nat
  total_wait_time : ℚ
  requests_blocked : Nat
deriving DecidableEq, Repr

/-- The freshly constructed limiter state. -/
def RLState.init : RLState := ⟨[], [], [], 0, 0, 0⟩

/-- `_cleanup_window`: pop timestamps strictly older than `now - max_age`
from the front of a window. -/
def cleanup_window (now max_age : ℚ) (window : List ℚ) : List ℚ :=
  window.dropWhile (fun t => decide (t < now - max_age))

/-- The pruning phase of `_get_wait_time`: clean all three windows at `now`. -/
def pruneState (now : ℚ) (st : RLState) : RLState :=
  { st with
    window_60s := cleanup_window now 60 st.window_60s
    window_10s := cleanup_window now 10 st.window_10s
    window_1s := cleanup_window now 1 st.window_1s }

/-- `_get_wait_time`: after pruning, every saturated window contributes the
time until its oldest entry expires; the result is the maximum of those
contributions (`max(wait_times)`), or `0` when no window is saturated. -/
def get_wait_time (cfg : RLConfig) (now : ℚ) (st : RLState) : ℚ × RLState :=
  let st1 := pruneState now st
  let wait_times : List ℚ :=
    (if cfg.requests_per_minute ≤ st1.window_60s.length then
      [(st1.window_60s.headD 0 + 60) - now] else [])
    ++ (if cfg.requests_per_10s ≤ st1.window_10s.length then
      [(st1.window_10s.headD 0 + 10) - now] else [])
    ++ (if cfg.requests_per_1s ≤ st1.window_1s.length then
      [(st1.window_1s.headD 0 + 1) - now] else [])
  (match wait_times with
   | [] => 0
   | w :: ws => ws.foldl max w, st1)

/-- One iteration of the loop body of `acquire`: compute the wait time
(pruning as a side effect, clock read `now1`), and when it is `≤ 0` record a
fresh timestamp (clock read `now2`) in all three windows and update the
statistics.  Returns (granted, computed wait, new state). -/
def rl_step (cfg : RLConfig) (start now1 now2 : ℚ) (st : RLState) :
    Bool × ℚ × RLState :=
  let r := get_wait_time cfg now1 st
  if r.1 ≤ 0 then
    (true, r.1,
      { r.2 with
        window_60s := r.2.window_60s ++ [now2]
        window_10s := r.2.window_10s ++ [now2]
        window_1s := r.2.window_1s ++ [now2]
        total_requests := r.2.total_requests + 1
        total_wait_time := r.2.total_wait_time + (now2 - start) })
  else
    (false, r.1, { r.2 with requests_blocked := r.2.requests_blocked + 1 })

/-- `acquire(timeout)` under a simulated clock.  Each loop iteration reads
the clock twice: `now1` inside `_get_wait_time` and `now2` either for the
recorded timestamp (grant path) or for the `elapsed` timeout check (blocked
path).  The list of clock readings doubles as fuel: `none` means the
readings ran out while the call was still waiting. -/
def acquire (cfg : RLConfig) (timeout : Option ℚ) (start : ℚ) :
    List (ℚ × ℚ) → RLState → Option Bool × RLState
  | [], st => (none, st)
  | (now1, now2) :: rest, st =>
    let r := rl_step cfg start now1 now2 st
    if r.1 then (some true, r.2.2)
    else
      match timeout with
      | some tmo =>
        if tmo < (now2 - start) + r.2.1 then (some false, r.2.2)
        else acquire cfg timeout start rest r.2.2
      | none => acquire cfg timeout start rest r.2.2

/-- A run of successive `acquire` loop iterations against a shared limiter
(each acquisition attempt at its own pair of clock readings, covering every
interleaving of `acquire` calls); collects the granted timestamps in order. -/
def rl_run (cfg : RLConfig) : List (ℚ × ℚ) → RLState → List ℚ × RLState
  | [], st => ([], st)
  | (now1, now2) :: rest, st =>
    let r := rl_step cfg now1 now1 now2 st
    let rec_result := rl_run cfg rest r.2.2
    (if r.1 then now2 :: rec_result.1 else rec_result.1, rec_result.2)

/-! ## API client (`reddit_client.py`, `RedditAPIClient`) -/

/-- Fields of the `data` object of a subreddit payload that the scanner
consumes. -/
structure Metadata where
  subreddit_type : Option String
  quarantine : Bool
  subscribers : Option Nat
  over18 : Bool
  title : Option String
deriving DecidableEq, Repr

/-- Outcome of one issued HTTP request, by the branches `_make_request`
distinguishes.  `ok (some m)` is a 2xx response whose JSON carries a `data`
object, `ok none` a 2xx response without one; `rateLimited` carries the
optional `Retry-After` header; `serverError` is any 5xx raised by
`raise_for_status`; `otherHttpError` any further `HTTPStatusError`;
`transportError` a non-HTTP exception from the request itself. -/
inductive HttpOutcome where
  | ok (body : Option Metadata)
  | rateLimited (retry_after : Option Nat)
  | unauthorized
  | redirect
  | notFound
  | forbidden
  | serverError
  | otherHttpError
  | transportError
deriving DecidableEq, Repr

/-- Value returned by `_make_request`: Python `None`, a status-marker dict
`{_http_status: code}`, or the parsed JSON (`json (some m)` when the payload
has a `data` object). -/
inductive ReqResult where
  | none
  | httpStatus (code : Nat)
  | json (body : Option Metadata)
deriving DecidableEq, Repr

/-- Observable events of one `_make_request` call, in order: a request
issued, its outcome, the mandatory `asyncio.sleep(retry_after)` after a 429,
and a backoff sleep before a retry. -/
inductive CEvent where
  | request
  | response (o : HttpOutcome)
  | sleepRetryAfter (d : Nat)
  | sleepBackoff
deriving DecidableEq, Repr

/-- Statistics counters of `RedditAPIClient` together with the event log of
the requests issued so far. -/
structure ClientState where
  total_requests : Nat
  failed_requests : Nat
  rate_limit_hits : Nat
  log : List CEvent
deriving DecidableEq, Repr

/-- Client state at process start. -/
def ClientState.init : ClientState := ⟨0, 0, 0, []⟩

/-- The `for attempt in range(max_retries)` loop of `_make_request`.
`outcomes n` is the network's answer to the `n`-th request of this call and
`fuel` the remaining loop iterations.  Every response increments
`total_requests`; a 429 increments `rate_limit_hits`, sleeps the
`Retry-After` value (default 60) and continues; a 401 re-authenticates and
continues; a 302 returns `None`; 404 and 403 return their status marker;
a 5xx backs off and continues; any other `HTTPStatusError` returns `None`;
a transport exception backs off and continues unless this was the last
attempt.  Exhausting the loop returns `None` ("Max retries exceeded"). -/
def make_request_loop (outcomes : Nat → HttpOutcome) :
    Nat → Nat → ClientState → ReqResult × ClientState
  | _, 0, st => (ReqResult.none, st)
  | attempt, fuel + 1, st =>
    match outcomes attempt with
    | .ok body =>
      (ReqResult.json body,
        { st with total_requests := st.total_requests + 1
                  log := st.log ++ [.request, .response (.ok body)] })
    | .rateLimited ra =>
      make_request_loop outcomes (attempt + 1) fuel
        { st with total_requests := st.total_requests + 1
                  rate_limit_hits := st.rate_limit_hits + 1
                  log := st.log ++ [.request, .response (.rateLimited ra),
                    .sleepRetryAfter (ra.getD 60)] }
    | .unauthorized =>
      make_request_loop outcomes (attempt + 1) fuel
        { st with total_requests := st.total_requests + 1
                  log := st.log ++ [.request, .response .unauthorized] }
    | .redirect =>
      (ReqResult.none,
        { st with total_requests := st.total_requests + 1
                  log := st.log ++ [.request, .response .redirect] })
    | .notFound =>
      (ReqResult.httpStatus 404,
        { st with total_requests := st.total_requests + 1
                  failed_requests := st.failed_requests + 1
                  log := st.log ++ [.request, .response .notFound] })
    | .forbidden =>
      (ReqResult.httpStatus 403,
        { st with total_requests := st.total_requests + 1
                  failed_requests := st.failed_requests + 1
                  log := st.log ++ [.request, .response .forbidden] })
    | .serverError =>
      make_request_loop outcomes (attempt + 1) fuel
        { st with total_requests := st.total_requests + 1
                  failed_requests := st.failed_requests + 1
                  log := st.log ++ [.request, .response .serverError, .sleepBackoff] }
    | .otherHttpError =>
      (ReqResult.none,
        { st with total_requests := st.total_requests + 1
                  failed_requests := st.failed_requests + 1
                  log := st.log ++ [.request, .response .otherHttpError] })
    | .transportError =>
      if fuel = 0 then
        (ReqResult.none,
          { st with failed_requests := st.failed_requests + 1
                    log := st.log ++ [.request, .response .transportError] })
      else
        make_request_loop outcomes (attempt + 1) fuel
          { st with failed_requests := st.failed_requests + 1
                    log := st.log ++ [.request, .response .transportError, .sleepBackoff] }

/-- `_make_request` with its default retry budget of 3. -/
def make_request (outcomes : Nat → HttpOutcome) (max_retries : Nat)
    (st : ClientState) : ReqResult × ClientState :=
  make_request_loop outcomes 0 max_retries st

/-- The classification logic of `get_subreddit_info` applied to the value
`_make_request` returned: `None` is a general error; a status marker maps
404 to `notfound` and 403 to `deleted` (any other marker falls through the
`data` check to `error`); a payload with a `data` object is `quarantined`
when the quarantine flag is set, `private` when `subreddit_type` is
`private`, else `active`. -/
def classify_info : ReqResult → Option Metadata × String
  | .none => (Option.none, "error")
  | .httpStatus code =>
    if code = 404 then (Option.none, "notfound")
    else if code = 403 then (Option.none, "deleted")
    else (Option.none, "error")
  | .json Option.none => (Option.none, "error")
  | .json (Option.some m) =>
    if m.quarantine then (Option.some m, "quarantined")
    else if m.subreddit_type.getD "public" = "private" then (Option.some m, "private")
    else (Option.some m, "active")

/-- `get_subreddit_info`: issue the `/about` request through `_make_request`
and classify the result (the surrounding `try` can only return
`(None, error)`, which the total model needs no extra case for). -/
def get_subreddit_info (outcomes : Nat → HttpOutcome) (max_retries : Nat)
    (st : ClientState) : (Option Metadata × String) × ClientState :=
  let r := make_request outcomes max_retries st
  (classify_info r.1, r.2)

/-- Event predicate: is this a request issue? -/
def CEvent.isRequest : CEvent → Bool
  | .request => true
  | _ => false

/-- Event predicate: is this any response? -/
def CEvent.isResponse : CEvent → Bool
  | .response _ => true
  | _ => false

/-- Event predicate: is this a 429 response? -/
def CEvent.is429 : CEvent → Bool
  | .response (.rateLimited _) => true
  | _ => false

/-- Checks that every 429 response in the log is immediately followed by a
sleep of exactly the effective `Retry-After` duration (header value, or the
default 60), in particular before any later request. -/
def sleep429_ok : List CEvent → Bool
  | [] => true
  | CEvent.response (HttpOutcome.rateLimited ra) :: rest =>
    match rest with
    | CEvent.sleepRetryAfter d :: rest' => decide (d = ra.getD 60) && sleep429_ok rest'
    | _ => false
  | _ :: rest => sleep429_ok rest

/-! ## Store (`database.py`, `Database` over the `subreddits` table)

A row is modelled by the columns the scanner's control flow reads or
writes; the table by an association list keyed by the primary-key `name`
(unique in SQLite, so lookups take the first match). -/

/-- Python's `str.lower()` (over the name keys), modelled on the character
list so that concrete instances reduce. -/
def pyLower (s : String) : String := ⟨s.data.map Char.toLower⟩

/-- Python's `str.strip()`: drop whitespace from both ends. -/
def pyStrip (s : String) : String :=
  ⟨((s.data.dropWhile Char.isWhitespace).reverse.dropWhile Char.isWhitespace).reverse⟩

/-- The modelled columns of one `subreddits` row. -/
structure SubRow where
  status : String
  is_accessible : Nat
  error_message : Option String
  metadata_collected : Bool
  retry_count : Option Nat
  last_updated : Option Nat
  title : Option String
  subscribers : Option Nat
deriving DecidableEq, Repr

/-- Row created by `add_subreddit`'s INSERT: status `pending`, collected 0,
and the schema defaults for the remaining columns. -/
def SubRow.pendingRow : SubRow :=
  ⟨"pending", 1, Option.none, false, Option.some 0, Option.none, Option.none, Option.none⟩

/-- The `subreddits` table. -/
abbrev DBTable := List (String × SubRow)

/-- `SELECT ... WHERE name = ?` with `fetchone`. -/
def dbGet (db : DBTable) (name : String) : Option SubRow :=
  (db.find? (fun p => decide (p.1 = name))).map Prod.snd

/-- `UPDATE subreddits SET ... WHERE name = ?`: rewrite the matching row. -/
def dbUpdateRow (db : DBTable) (name : String) (f : SubRow → SubRow) : DBTable :=
  db.map (fun p => if p.1 = name then (p.1, f p.2) else p)

/-- `DELETE FROM subreddits WHERE name = ?`. -/
def dbDelete (db : DBTable) (name : String) : DBTable :=
  db.filter (fun p => decide (p.1 ≠ name))

/-- `Database.add_subreddit`: `INSERT OR IGNORE` of a pending row keyed by
the lowercased name. -/
def add_subreddit (db : DBTable) (name : String) : DBTable :=
  if (dbGet db (pyLower name)).isSome then db
  else db ++ [(pyLower name, SubRow.pendingRow)]

/-- `Database.update_subreddit_status`: sets `status`, the derived
`is_accessible` flag (1 exactly for `active` and `pending`), and
`error_message` of the row keyed by the lowercased name. -/
def update_subreddit_status (db : DBTable) (name status : String)
    (error_message : Option String) : DBTable :=
  let is_accessible : Nat := if status = "active" ∨ status = "pending" then 1 else 0
  dbUpdateRow db (pyLower name) (fun r =>
    { r with status := status, is_accessible := is_accessible,
             error_message := error_message })

/-- `Database.update_subreddit`: always sets `status` and `error_message`;
sets `metadata_collected` only when the optional argument is given. -/
def update_subreddit (db : DBTable) (subreddit status : String)
    (error_message : Option String) (metadata_collected : Option Bool) : DBTable :=
  dbUpdateRow db (pyLower subreddit) (fun r =>
    { r with status := status, error_message := error_message,
             metadata_collected := metadata_collected.getD r.metadata_collected })

/-- `Database.update_subreddit_metadata` restricted to the modelled columns:
stores the payload fields, forces status `active` and `is_accessible 1`,
stamps `last_updated := now` and clears `error_message`. -/
def update_subreddit_metadata (db : DBTable) (name : String) (m : Metadata)
    (now : Nat) : DBTable :=
  dbUpdateRow db (pyLower name) (fun r =>
    { r with title := m.title, subscribers := m.subscribers, status := "active",
             is_accessible := 1, last_updated := Option.some now,
             error_message := Option.none })

/-- `Database.fix_inconsistent_states`: first UPDATE clears
`metadata_collected` on rows with `status='pending' AND metadata_collected=1`,
second UPDATE resets `status` to `pending` on rows with `status='completed'
AND metadata_collected=0`; returns the two rowcounts. -/
def fix_inconsistent_states (db : DBTable) : DBTable × Nat × Nat :=
  let n1 := db.countP (fun p =>
    decide (p.2.status = "pending" ∧ p.2.metadata_collected = true))
  let db1 := db.map (fun p =>
    if p.2.status = "pending" ∧ p.2.metadata_collected = true then
      (p.1, { p.2 with metadata_collected := false }) else p)
  let n2 := db1.countP (fun p =>
    decide (p.2.status = "completed" ∧ p.2.metadata_collected = false))
  let db2 := db1.map (fun p =>
    if p.2.status = "completed" ∧ p.2.metadata_collected = false then
      (p.1, { p.2 with status := "pending" }) else p)
  (db2, n1, n2)

/-! ## Orchestrator (`scanner.py`, `SubredditScanner`) -/

/-- The `metadata and metadata.get('subreddit_type') == 'user'` test. -/
def isUserProfile : Option Metadata → Bool
  | Option.some m => decide (m.subreddit_type = Option.some "user")
  | Option.none => false

/-- Result of one `process_subreddit` call: the updated table, the
consecutive-403 counter, and the boolean the method returns. -/
structure RefreshResult where
  db : DBTable
  consecutive_403s : Nat
  ok : Bool
deriving DecidableEq, Repr

/-- `SubredditScanner.process_subreddit`, refresh mode.  `fetch` is the
`(metadata, status)` pair `get_subreddit_info` returned and `now` the clock
stamp `update_subreddit_metadata` would record.  The method first marks the
row `processing` (clearing `error_message`), then branches on the fetch
classification; the raw SQL statements inside it address the row by the
unlowered `subreddit` argument.  The `except` path (status `error` written
on a raised exception) is unreachable in this pure model because
`get_subreddit_info` never raises. -/
def process_subreddit (db0 : DBTable) (consecutive_403s : Nat)
    (subreddit : String) (fetch : Option Metadata × String) (now : Nat) :
    RefreshResult :=
  let db := update_subreddit db0 subreddit "processing" Option.none Option.none
  let metadata := fetch.1
  let status := fetch.2
  if isUserProfile metadata then
    ⟨dbDelete db subreddit, consecutive_403s, true⟩
  else if status = "active" ∧ metadata.isSome then
    let db := match metadata with
      | Option.some m => update_subreddit_metadata db subreddit m now
      | Option.none => db
    let db := update_subreddit db subreddit "active" Option.none (Option.some true)
    let db := dbUpdateRow db subreddit (fun r => { r with retry_count := Option.some 0 })
    ⟨db, 0, true⟩
  else
    let retry_count := ((dbGet db subreddit).bind SubRow.retry_count).getD 0
    if status = "notfound" then
      ⟨dbDelete db subreddit, 0, true⟩
    else if status = "deleted" then
      let consecutive_403s := consecutive_403s + 1
      let retry_count := retry_count + 1
      if 3 ≤ retry_count then
        ⟨dbDelete db subreddit, 0, true⟩
      else
        ⟨dbUpdateRow db subreddit (fun r => { r with retry_count := Option.some retry_count }),
         consecutive_403s, true⟩
    else
      let db := update_subreddit_status db subreddit status Option.none
      let db := update_subreddit db subreddit status
        (Option.some ("Status: " ++ status)) (Option.some true)
      let db := dbUpdateRow db subreddit (fun r => { r with retry_count := Option.some 0 })
      ⟨db, 0, true⟩

/-- `_track_success`: append a success and keep only the last 10 entries. -/
def track_success (recent_successes : List Bool) : List Bool :=
  let s := recent_successes ++ [true]
  if 10 < s.length then s.drop 1 else s

/-- Result of one iteration of the per-row loop of `run_csv_scan`: the
updated table, the counters, whether a network fetch happened for this row,
and whether the row is kept in `rows_to_keep`. -/
structure CsvItemResult where
  db : DBTable
  consecutive_403s : Nat
  recent_successes : List Bool
  fetched : Bool
  kept : Bool
deriving DecidableEq, Repr

/-- One iteration of the per-row loop of `run_csv_scan` (the classification
part; shutdown, threshold, limit and pacing checks surround it in the
source).  A row already in the table is a duplicate: dropped from the CSV
without any fetch.  Otherwise the name is inserted as pending, fetched, and
the outcome handled: user profiles and rows classified `active` with fewer
than 100 subscribers, `notfound` or `deleted` are deleted again; `active`
rows are stored with metadata; any other status is stored with
`metadata_collected` set.  Only the `except` path keeps the row in the CSV,
and it is unreachable in this pure model. -/
def run_csv_scan_item (db0 : DBTable) (consecutive_403s : Nat)
    (recent_successes : List Bool) (rawName : String)
    (fetch : Option Metadata × String) (now : Nat) : CsvItemResult :=
  let subreddit := pyLower (pyStrip rawName)
  if (dbGet db0 subreddit).isSome then
    ⟨db0, consecutive_403s, recent_successes, false, false⟩
  else
    let db := add_subreddit db0 subreddit
    let metadata := fetch.1
    let status := fetch.2
    if isUserProfile metadata then
      ⟨dbDelete db subreddit, consecutive_403s, recent_successes, true, false⟩
    else if status = "active" ∧ metadata.isSome then
      let subscribers := ((metadata.map Metadata.subscribers).getD Option.none).getD 0
      if subscribers < 100 then
        ⟨dbDelete db subreddit, 0, track_success recent_successes, true, false⟩
      else
        let db := match metadata with
          | Option.some m => update_subreddit_metadata db subreddit m now
          | Option.none => db
        let db := update_subreddit db subreddit "active" Option.none (Option.some true)
        ⟨db, 0, track_success recent_successes, true, false⟩
    else if status = "notfound" then
      ⟨dbDelete db subreddit, 0, track_success recent_successes, true, false⟩
    else if status = "deleted" then
      ⟨dbDelete db subreddit, 0, track_success recent_successes, true, false⟩
    else
      let db := update_subreddit_status db subreddit status Option.none
      let db := update_subreddit db subreddit status
        (Option.some ("Status: " ++ status)) (Option.some true)
      ⟨db, 0, track_success recent_successes, true, false⟩

/-- The skip-ahead of `_interleave_with_random` (`while ordered_idx <
len(ordered_list) and ordered_list[ordered_idx] not in remaining`): first
index `i ≥ idx` with `ordered_list[i]` still in `remaining`, or
`l.length` when there is none. -/
def skip_to_remaining (l remaining : List String) (idx : Nat) : Nat :=
  idx + (l.drop idx).findIdx (fun x => decide (x ∈ remaining))

/-- The `while remaining:` loop of `_interleave_with_random`: take the next
not-yet-consumed item of the priority order, then (if anything remains) a
pick from the remaining set chosen by the oracle `rnd` (indexed by the
number of random draws so far), and repeat.  The fuel argument bounds the
iterations; `interleave_with_random` passes enough for the loop never to be
cut short. -/
def interleave_loop (l : List String) (rnd : Nat → List String → String) :
    Nat → Nat → List String → List String → Nat → List String
  | 0, _, _, acc, _ => acc
  | fuel + 1, idx, remaining, acc, draws =>
    if remaining = [] then acc
    else
      let j := skip_to_remaining l remaining idx
      if h : j < l.length then
        let sub := l.get ⟨j, h⟩
        let acc1 := acc ++ [sub]
        let remaining1 := remaining.erase sub
        if remaining1 = [] then acc1
        else
          let pick := rnd draws remaining1
          interleave_loop l rnd fuel (j + 1) (remaining1.erase pick)
            (acc1 ++ [pick]) (draws + 1)
      else
        if remaining = [] then acc
        else
          let pick := rnd draws remaining
          interleave_loop l rnd fuel j (remaining.erase pick)
            (acc ++ [pick]) (draws + 1)

/-- `SubredditScanner._interleave_with_random`: lists of length at most 2
are returned unchanged; otherwise the priority list is interleaved with
random picks, starting from the whole list as the remaining set
(`set(ordered_list)`, deduplicated). -/
def interleave_with_random (l : List String)
    (rnd : Nat → List String → String) : List String :=
  if l.length ≤ 2 then l
  else interleave_loop l rnd l.length 0 l.dedup [] 0

/-- Specification helper: the next not-yet-consumed priority item — the
first element of `l` that is not in `consumed`. -/
def next_priority (l consumed : List String) : Option String :=
  (l.filter (fun x => decide (x ∉ consumed))).head?

/-- Specification helper: checks the interleaving pattern of an output
against the priority list `l`, two positions at a time.  Every even position
must hold the next not-yet-consumed priority item, every odd position some
element of `l` not yet consumed. -/
def alternation_ok (l : List String) : List String → List String → Bool
  | _, [] => true
  | consumed, [p] => decide (next_priority l consumed = Option.some p)
  | consumed, p :: q :: rest =>
    decide (next_priority l consumed = Option.some p) && decide (q ∈ l) &&
    decide (q ∉ consumed) && decide (q ≠ p) &&
    alternation_ok l (consumed ++ [p, q]) rest

/-- The per-row effect of the two UPDATE statements of
`fix_inconsistent_states`, in their source order. -/
def fixRow (r : SubRow) : SubRow :=
  let r1 := if r.status = "pending" ∧ r.metadata_collected = true then
    { r with metadata_collected := false } else r
  if r1.status = "completed" ∧ r1.metadata_collected = false then
    { r1 with status := "pending" } else r1

/-! ## Lemmas about the table operations -/

theorem dbGet_cons (p : String × SubRow) (t : DBTable) (k : String) :
    dbGet (p :: t) k = if p.1 = k then Option.some p.2 else dbGet t k := by
  by_cases h : p.1 = k <;> simp [dbGet, List.find?, h]

theorem dbUpdateRow_cons (p : String × SubRow) (t : DBTable) (k : String)
    (f : SubRow → SubRow) :
    dbUpdateRow (p :: t) k f =
      (if p.1 = k then (p.1, f p.2) else p) :: dbUpdateRow t k f := rfl

theorem dbDelete_cons (p : String × SubRow) (t : DBTable) (k : String) :
    dbDelete (p :: t) k = if p.1 = k then dbDelete t k else p :: dbDelete t k := by
  by_cases h : p.1 = k <;> simp [dbDelete, h]

theorem dbGet_dbUpdateRow_self (db : DBTable) (k : String) (f : SubRow → SubRow) :
    dbGet (dbUpdateRow db k f) k = (dbGet db k).map f := by
  induction db with
  | nil => rfl
  | cons p t ih =>
    rw [dbUpdateRow_cons, dbGet_cons, dbGet_cons]
    by_cases h : p.1 = k
    · simp [h]
    · simp only [if_neg h]
      exact ih

theorem dbGet_dbUpdateRow_of_ne (db : DBTable) (k k' : String)
    (f : SubRow → SubRow) (h : k' ≠ k) :
    dbGet (dbUpdateRow db k f) k' = dbGet db k' := by
  induction db with
  | nil => rfl
  | cons p t ih =>
    rw [dbUpdateRow_cons, dbGet_cons, dbGet_cons]
    by_cases hp : p.1 = k
    · rw [if_pos hp]
      have hne : ¬ p.1 = k' := fun hk => h (hk.symm.trans hp)
      rw [if_neg (by simpa using hne), if_neg hne, ih]
    · rw [if_neg hp]
      by_cases hq : p.1 = k'
      · rw [if_pos hq, if_pos hq]
      · rw [if_neg hq, if_neg hq, ih]

theorem dbGet_dbDelete_self (db : DBTable) (k : String) :
    dbGet (dbDelete db k) k = Option.none := by
  induction db with
  | nil => rfl
  | cons p t ih =>
    rw [dbDelete_cons]
    by_cases h : p.1 = k
    · rw [if_pos h, ih]
    · rw [if_neg h, dbGet_cons, if_neg h, ih]

theorem dbGet_dbDelete_of_ne (db : DBTable) (k k' : String) (h : k' ≠ k) :
    dbGet (dbDelete db k) k' = dbGet db k' := by
  induction db with
  | nil => rfl
  | cons p t ih =>
    rw [dbDelete_cons, dbGet_cons]
    by_cases hp : p.1 = k
    · have hne : ¬ p.1 = k' := fun hk => h (hk.symm.trans hp)
      rw [if_pos hp, if_neg hne, ih]
    · rw [if_neg hp, dbGet_cons, ih]

theorem dbGet_append (db1 db2 : DBTable) (k : String) (h : dbGet db1 k = Option.none) :
    dbGet (db1 ++ db2) k = dbGet db2 k := by
  induction db1 with
  | nil => rfl
  | cons p t ih =>
    rw [dbGet_cons] at h
    by_cases hp : p.1 = k
    · rw [if_pos hp] at h
      exact absurd h (by simp)
    · rw [if_neg hp] at h
      rw [List.cons_append, dbGet_cons, if_neg hp, ih h]

theorem dbGet_add_subreddit_self (db : DBTable) (name : String)
    (h : dbGet db (pyLower name) = Option.none) :
    dbGet (add_subreddit db name) (pyLower name) = Option.some SubRow.pendingRow := by
  rw [add_subreddit, if_neg (by simp [h]), dbGet_append _ _ _ h, dbGet_cons]
  simp

/-! ## C10: `update_subreddit_status` -/

/-- C10 (confirmed): after `update_subreddit_status(name, status, error_message)`
on an existing row, the row's `is_accessible` flag is 1 exactly when the new
status is `active` or `pending` and 0 otherwise, and no modelled column
other than `status`, `is_accessible` and `error_message` is modified; rows
under other keys are untouched. -/
theorem update_subreddit_status_spec (db : DBTable) (name status : String)
    (err : Option String) (r : SubRow) (k2 : String)
    (h : dbGet db (pyLower name) = Option.some r) (hk2 : k2 ≠ pyLower name) :
    dbGet (update_subreddit_status db name status err) (pyLower name) =
      Option.some { r with
        status := status,
        is_accessible := if status = "active" ∨ status = "pending" then 1 else 0,
        error_message := err } ∧
    (((if status = "active" ∨ status = "pending" then 1 else 0 : Nat) = 1) ↔
      (status = "active" ∨ status = "pending")) ∧
    dbGet (update_subreddit_status db name status err) k2 = dbGet db k2 := by
  refine ⟨?_, ?_, ?_⟩
  · simp only [update_subreddit_status]
    rw [dbGet_dbUpdateRow_self, h]
    rfl
  · by_cases hc : status = "active" ∨ status = "pending" <;> simp [hc]
  · simp only [update_subreddit_status]
    exact dbGet_dbUpdateRow_of_ne _ _ _ _ hk2

/-- Witness for `update_subreddit_status_spec` at a concrete row and status. -/
theorem update_subreddit_status_spec_witness :
    (dbGet [("x", SubRow.pendingRow)] (pyLower "x") = Option.some SubRow.pendingRow) ∧
    (("y" : String) ≠ pyLower "x") ∧
    (dbGet (update_subreddit_status [("x", SubRow.pendingRow)] "x" "banned" (Option.some "m"))
        (pyLower "x") =
      Option.some { SubRow.pendingRow with
        status := "banned",
        is_accessible := if ("banned" : String) = "active" ∨ ("banned" : String) = "pending" then 1 else 0,
        error_message := Option.some "m" } ∧
    (((if ("banned" : String) = "active" ∨ ("banned" : String) = "pending" then 1 else 0 : Nat) = 1) ↔
      (("banned" : String) = "active" ∨ ("banned" : String) = "pending")) ∧
    dbGet (update_subreddit_status [("x", SubRow.pendingRow)] "x" "banned" (Option.some "m")) "y" =
      dbGet [("x", SubRow.pendingRow)] "y") :=
  ⟨by decide, by decide,
    update_subreddit_status_spec [("x", SubRow.pendingRow)] "x" "banned"
      (Option.some "m") SubRow.pendingRow "y" (by decide) (by decide)⟩

/-! ## C7: `fix_inconsistent_states` -/

theorem fix_inconsistent_states_db_eq (db : DBTable) :
    (fix_inconsistent_states db).1 = db.map (fun p => (p.1, fixRow p.2)) := by
  simp only [fix_inconsistent_states, List.map_map]
  refine List.map_congr_left ?_
  intro p _
  simp only [Function.comp, fixRow]
  by_cases h1 : p.2.status = "pending" ∧ p.2.metadata_collected = true
  · rw [if_pos h1, if_pos h1]
    dsimp only
    split_ifs <;> rfl
  · rw [if_neg h1, if_neg h1]
    split_ifs <;> rfl

/-- Helper: after `fix_inconsistent_states` no row is both `pending` and
collected. -/
theorem fixRow_not_inconsistent (r : SubRow) :
    ¬ ((fixRow r).status = "pending" ∧ (fixRow r).metadata_collected = true) := by
  unfold fixRow
  by_cases h1 : r.status = "pending" ∧ r.metadata_collected = true
  · rw [if_pos h1, if_neg (by simp [h1.1])]
    simp
  · rw [if_neg h1]
    by_cases h2 : r.status = "completed" ∧ r.metadata_collected = false
    · rw [if_pos h2]
      simp [h2.2]
    · rw [if_neg h2]
      exact h1

/-- C7 (confirmed): `fix_inconsistent_states` — which `run` invokes before
processing any item — maps every row through `fixRow`: rows with status
`pending` and `metadata_collected` set get the flag cleared, rows with the
completed status and the flag clear are reset to `pending`, and afterwards
no row is both `pending` and collected. -/
theorem fix_inconsistent_states_spec (db : DBTable) (k : String) (r : SubRow)
    (k' : String) (r' : SubRow)
    (h : (k, r) ∈ db) (h' : (k', r') ∈ (fix_inconsistent_states db).1) :
    (k, fixRow r) ∈ (fix_inconsistent_states db).1 ∧
    (r.status = "pending" ∧ r.metadata_collected = true →
      fixRow r = { r with metadata_collected := false }) ∧
    (r.status = "completed" ∧ r.metadata_collected = false →
      fixRow r = { r with status := "pending" }) ∧
    ¬ (r'.status = "pending" ∧ r'.metadata_collected = true) := by
  refine ⟨?_, ?_, ?_, ?_⟩
  · rw [fix_inconsistent_states_db_eq]
    exact List.mem_map_of_mem _ h
  · intro hc
    unfold fixRow
    rw [if_pos hc, if_neg (by simp [hc.1])]
  · intro hc
    have h1 : ¬ (r.status = "pending" ∧ r.metadata_collected = true) := by
      simp [hc.1]
    unfold fixRow
    rw [if_neg h1, if_pos hc]
  · rw [fix_inconsistent_states_db_eq] at h'
    obtain ⟨p, _, hpe⟩ := List.mem_map.1 h'
    have : r' = fixRow p.2 := congrArg Prod.snd hpe |>.symm
    rw [this]
    exact fixRow_not_inconsistent p.2

/-- Witness for `fix_inconsistent_states_spec`: the end-to-end scenario of
the specification, a store containing `{key:"x", status:pending,
collected:true}`. -/
theorem fix_inconsistent_states_spec_witness :
    (("x", (⟨"pending", 1, Option.none, true, Option.some 0, Option.none, Option.none,
        Option.none⟩ : SubRow)) ∈
      [("x", (⟨"pending", 1, Option.none, true, Option.some 0, Option.none, Option.none,
        Option.none⟩ : SubRow))]) ∧
    (("x", (⟨"pending", 1, Option.none, false, Option.some 0, Option.none, Option.none,
        Option.none⟩ : SubRow)) ∈
      (fix_inconsistent_states [("x", ⟨"pending", 1, Option.none, true, Option.some 0,
        Option.none, Option.none, Option.none⟩)]).1) ∧
    (("x", fixRow ⟨"pending", 1, Option.none, true, Option.some 0, Option.none, Option.none,
        Option.none⟩) ∈
      (fix_inconsistent_states [("x", ⟨"pending", 1, Option.none, true, Option.some 0,
        Option.none, Option.none, Option.none⟩)]).1) ∧
    ¬ ((⟨"pending", 1, Option.none, false, Option.some 0, Option.none, Option.none,
        Option.none⟩ : SubRow).status = "pending" ∧
       (⟨"pending", 1, Option.none, false, Option.some 0, Option.none, Option.none,
        Option.none⟩ : SubRow).metadata_collected = true) :=
  ⟨by decide, by decide,
    (fix_inconsistent_states_spec
      [("x", ⟨"pending", 1, Option.none, true, Option.some 0, Option.none, Option.none,
        Option.none⟩)] "x"
      ⟨"pending", 1, Option.none, true, Option.some 0, Option.none, Option.none, Option.none⟩
      "x"
      ⟨"pending", 1, Option.none, false, Option.some 0, Option.none, Option.none, Option.none⟩
      (by decide) (by decide)).1,
    fun hc => by exact absurd hc.2 (by decide)⟩

/-! ## C2: refresh-mode handling of the `deleted` classification -/

/-- C2 counterexample: a `pending` work item with retry count 0 classified
`deleted` is left in status `processing` (set at the start of
`process_subreddit`), not `pending` — refuting the claim that the item
remains pending for a future pass. -/
theorem process_subreddit_deleted_counterexample :
    process_subreddit [("x", SubRow.pendingRow)] 0 "x" (Option.none, "deleted") 0 =
      ⟨[("x", { SubRow.pendingRow with
        status := "processing", retry_count := Option.some 1 })], 1, true⟩ ∧
    SubRow.pendingRow.status = "pending" ∧
    ({ SubRow.pendingRow with
      status := "processing", retry_count := Option.some 1 } : SubRow).status ≠ "pending" := by
  exact ⟨by decide, by decide, by decide⟩

/-- C2 (amended): on a work item classified `deleted`, `process_subreddit`
increments the consecutive-forbidden counter and the item's retry count; if
the incremented retry count reaches 3 the row is deleted and the counter
resets to 0; otherwise the incremented retry count is persisted with the
counter incremented — but the row is left in status `processing` (with
`error_message` cleared), which the call set on entry, not in `pending`. -/
theorem process_subreddit_deleted_spec (db : DBTable) (c403 : Nat)
    (name : String) (now : Nat) (r : SubRow)
    (hname : pyLower name = name)
    (h : dbGet db name = Option.some r) :
    (process_subreddit db c403 name (Option.none, "deleted") now).ok = true ∧
    (3 ≤ r.retry_count.getD 0 + 1 →
      dbGet (process_subreddit db c403 name (Option.none, "deleted") now).db name =
        Option.none ∧
      (process_subreddit db c403 name (Option.none, "deleted") now).consecutive_403s = 0) ∧
    (r.retry_count.getD 0 + 1 < 3 →
      (process_subreddit db c403 name (Option.none, "deleted") now).consecutive_403s =
        c403 + 1 ∧
      dbGet (process_subreddit db c403 name (Option.none, "deleted") now).db name =
        Option.some { r with
          status := "processing", error_message := Option.none,
          retry_count := Option.some (r.retry_count.getD 0 + 1) }) := by
  have hdb1 : dbGet (update_subreddit db name "processing" Option.none Option.none) name
      = Option.some { r with status := "processing", error_message := Option.none } := by
    rw [update_subreddit]
    rw [hname, dbGet_dbUpdateRow_self, h]
    rfl
  have hexp : process_subreddit db c403 name (Option.none, "deleted") now =
      (if 3 ≤ r.retry_count.getD 0 + 1 then
        ⟨dbDelete (update_subreddit db name "processing" Option.none Option.none) name,
          0, true⟩
      else
        ⟨dbUpdateRow (update_subreddit db name "processing" Option.none Option.none) name
          (fun s => { s with retry_count := Option.some (r.retry_count.getD 0 + 1) }),
          c403 + 1, true⟩) := by
    simp only [process_subreddit]
    rw [if_neg (by decide), if_neg (by decide), if_neg (by decide), if_pos (by decide)]
    rw [hdb1]
    rfl
  refine ⟨?_, ?_, ?_⟩
  · rw [hexp]
    split_ifs <;> rfl
  · intro hc
    rw [hexp, if_pos hc]
    exact ⟨dbGet_dbDelete_self _ _, rfl⟩
  · intro hc
    rw [hexp, if_neg (by omega)]
    refine ⟨rfl, ?_⟩
    rw [dbGet_dbUpdateRow_self, hdb1]
    rfl

/-- Witness for `process_subreddit_deleted_spec` at a concrete pending row. -/
theorem process_subreddit_deleted_spec_witness :
    (pyLower "x" = "x") ∧
    (dbGet [("x", SubRow.pendingRow)] "x" = Option.some SubRow.pendingRow) ∧
    ((process_subreddit [("x", SubRow.pendingRow)] 0 "x" (Option.none, "deleted") 7).ok = true ∧
    (3 ≤ SubRow.pendingRow.retry_count.getD 0 + 1 →
      dbGet (process_subreddit [("x", SubRow.pendingRow)] 0 "x"
        (Option.none, "deleted") 7).db "x" = Option.none ∧
      (process_subreddit [("x", SubRow.pendingRow)] 0 "x"
        (Option.none, "deleted") 7).consecutive_403s = 0) ∧
    (SubRow.pendingRow.retry_count.getD 0 + 1 < 3 →
      (process_subreddit [("x", SubRow.pendingRow)] 0 "x"
        (Option.none, "deleted") 7).consecutive_403s = 0 + 1 ∧
      dbGet (process_subreddit [("x", SubRow.pendingRow)] 0 "x"
        (Option.none, "deleted") 7).db "x" =
        Option.some { SubRow.pendingRow with
          status := "processing", error_message := Option.none,
          retry_count := Option.some (SubRow.pendingRow.retry_count.getD 0 + 1) })) :=
  ⟨by decide, by decide,
    process_subreddit_deleted_spec [("x", SubRow.pendingRow)] 0 "x" 7 SubRow.pendingRow
      (by decide) (by decide)⟩

/-! ## C3: list-file (CSV) mode versus refresh mode -/

/-- C3 counterexample: for an item absent from the store whose fetch is
classified `deleted`, CSV-scan mode deletes the freshly added pending row
and resets the consecutive-forbidden counter to 0 (even recording a
success), while the refresh handler on the same fresh pending row keeps the
row with retry count 1 and increments the counter to 1 — the two modes do
not handle `deleted` identically. -/
theorem run_csv_scan_deleted_counterexample :
    run_csv_scan_item [] 0 [] "x" (Option.none, "deleted") 0 =
      ⟨[], 0, [true], true, false⟩ ∧
    process_subreddit [("x", SubRow.pendingRow)] 0 "x" (Option.none, "deleted") 0 =
      ⟨[("x", { SubRow.pendingRow with
        status := "processing", retry_count := Option.some 1 })], 1, true⟩ ∧
    (0 : Nat) ≠ 1 := by
  exact ⟨by decide, by decide, by decide⟩

/-- C3 (amended): in CSV-scan mode an item already present in the store is
dropped with no network fetch and no state change; an item absent from the
store is fetched (after insertion as pending); but the `deleted`
classification is handled unlike refresh mode: the freshly added row is
deleted immediately, the consecutive-forbidden counter resets to 0 and a
success is tracked, with no retry-count budget. -/
theorem run_csv_scan_item_spec (db : DBTable) (c403 : Nat) (succ : List Bool)
    (rawName : String) (fetch : Option Metadata × String) (now : Nat) :
    ((dbGet db (pyLower (pyStrip rawName))).isSome = true →
      run_csv_scan_item db c403 succ rawName fetch now = ⟨db, c403, succ, false, false⟩) ∧
    (dbGet db (pyLower (pyStrip rawName)) = Option.none →
      (run_csv_scan_item db c403 succ rawName fetch now).fetched = true) ∧
    (dbGet db (pyLower (pyStrip rawName)) = Option.none →
      fetch = (Option.none, "deleted") →
      run_csv_scan_item db c403 succ rawName fetch now =
        ⟨dbDelete (add_subreddit db (pyLower (pyStrip rawName)))
          (pyLower (pyStrip rawName)), 0, track_success succ, true, false⟩ ∧
      dbGet (run_csv_scan_item db c403 succ rawName fetch now).db
        (pyLower (pyStrip rawName)) = Option.none) := by
  refine ⟨?_, ?_, ?_⟩
  · intro hdup
    simp only [run_csv_scan_item]
    rw [if_pos hdup]
  · intro habs
    simp only [run_csv_scan_item]
    rw [if_neg (by simp [habs])]
    split_ifs <;> rfl
  · intro habs hfetch
    have hmain : run_csv_scan_item db c403 succ rawName fetch now =
        ⟨dbDelete (add_subreddit db (pyLower (pyStrip rawName)))
          (pyLower (pyStrip rawName)), 0, track_success succ, true, false⟩ := by
      simp only [run_csv_scan_item]
      rw [if_neg (by simp [habs]), hfetch]
      rw [if_neg (by decide), if_neg (by decide), if_neg (by decide), if_pos (by decide)]
    refine ⟨hmain, ?_⟩
    rw [hmain]
    exact dbGet_dbDelete_self _ _

/-- Witness for `run_csv_scan_item_spec`: a duplicate row on an occupied
store and a `deleted` fetch on the empty store. -/
theorem run_csv_scan_item_spec_witness :
    ((dbGet ([] : DBTable) (pyLower (pyStrip "x")) = Option.none) ∧
     (((dbGet ([] : DBTable) (pyLower (pyStrip "x"))).isSome = true →
        run_csv_scan_item [] 3 [] "x" (Option.none, "deleted") 0 = ⟨[], 3, [], false, false⟩) ∧
      (dbGet ([] : DBTable) (pyLower (pyStrip "x")) = Option.none →
        (run_csv_scan_item [] 3 [] "x" (Option.none, "deleted") 0).fetched = true) ∧
      (dbGet ([] : DBTable) (pyLower (pyStrip "x")) = Option.none →
        (Option.none, "deleted") = ((Option.none : Option Metadata), "deleted") →
        run_csv_scan_item [] 3 [] "x" (Option.none, "deleted") 0 =
          ⟨dbDelete (add_subreddit [] (pyLower (pyStrip "x"))) (pyLower (pyStrip "x")),
            0, track_success [], true, false⟩ ∧
        dbGet (run_csv_scan_item [] 3 [] "x" (Option.none, "deleted") 0).db
          (pyLower (pyStrip "x")) = Option.none))) :=
  ⟨by decide, run_csv_scan_item_spec [] 3 [] "x" (Option.none, "deleted") 0⟩

/-! ## C5: terminal classification of HTTP outcomes -/

/-- C5 counterexample: 404 and 403 map to `notfound` and `deleted` as
claimed, but a 302 redirect — a 3xx response — makes `_make_request` return
`None`, which `get_subreddit_info` classifies as `error`, not as a
`notfound` equivalent. -/
theorem redirect_not_notfound_counterexample :
    (get_subreddit_info (fun _ => HttpOutcome.notFound) 3 ClientState.init).1 =
      (Option.none, "notfound") ∧
    (get_subreddit_info (fun _ => HttpOutcome.forbidden) 3 ClientState.init).1 =
      (Option.none, "deleted") ∧
    (get_subreddit_info (fun _ => HttpOutcome.redirect) 3 ClientState.init).1 =
      (Option.none, "error") ∧
    ("error" : String) ≠ "notfound" := by
  exact ⟨by decide, by decide, by decide, by decide⟩

/-- C5 (amended): a 404 yields the terminal classification `notfound`, a 403
yields `deleted`, and each consumes exactly one request with no retry; a 302
redirect is also terminal and unretried, but is classified `error` (the
request layer returns `None`), not a `notfound` equivalent. -/
theorem make_request_terminal_spec (outcomes : Nat → HttpOutcome) (fuel : Nat)
    (st : ClientState) (hfuel : 0 < fuel) :
    (outcomes 0 = HttpOutcome.notFound →
      (get_subreddit_info outcomes fuel st).1 = (Option.none, "notfound") ∧
      (get_subreddit_info outcomes fuel st).2.total_requests = st.total_requests + 1) ∧
    (outcomes 0 = HttpOutcome.forbidden →
      (get_subreddit_info outcomes fuel st).1 = (Option.none, "deleted") ∧
      (get_subreddit_info outcomes fuel st).2.total_requests = st.total_requests + 1) ∧
    (outcomes 0 = HttpOutcome.redirect →
      (get_subreddit_info outcomes fuel st).1 = (Option.none, "error") ∧
      (get_subreddit_info outcomes fuel st).2.total_requests = st.total_requests + 1) := by
  obtain ⟨n, rfl⟩ : ∃ n, fuel = n + 1 := ⟨fuel - 1, by omega⟩
  refine ⟨?_, ?_, ?_⟩ <;> intro h0 <;>
    simp [get_subreddit_info, make_request, make_request_loop, h0, classify_info]

/-- Witness for `make_request_terminal_spec` on a 404 stream. -/
theorem make_request_terminal_spec_witness :
    (0 < 3) ∧
    (((fun _ => HttpOutcome.notFound) 0 = HttpOutcome.notFound →
      (get_subreddit_info (fun _ => HttpOutcome.notFound) 3 ClientState.init).1 =
        (Option.none, "notfound") ∧
      (get_subreddit_info (fun _ => HttpOutcome.notFound) 3 ClientState.init).2.total_requests =
        ClientState.init.total_requests + 1) ∧
    ((fun _ => HttpOutcome.notFound) 0 = HttpOutcome.forbidden →
      (get_subreddit_info (fun _ => HttpOutcome.notFound) 3 ClientState.init).1 =
        (Option.none, "deleted") ∧
      (get_subreddit_info (fun _ => HttpOutcome.notFound) 3 ClientState.init).2.total_requests =
        ClientState.init.total_requests + 1) ∧
    ((fun _ => HttpOutcome.notFound) 0 = HttpOutcome.redirect →
      (get_subreddit_info (fun _ => HttpOutcome.notFound) 3 ClientState.init).1 =
        (Option.none, "error") ∧
      (get_subreddit_info (fun _ => HttpOutcome.notFound) 3 ClientState.init).2.total_requests =
        ClientState.init.total_requests + 1)) :=
  ⟨by decide, make_request_terminal_spec (fun _ => HttpOutcome.notFound) 3
    ClientState.init (by decide)⟩

/-! ## C6: `get_subreddit_info` never escapes its boundary -/

/-- C6 (confirmed): `get_subreddit_info` is a total function of the request
outcome; whenever `_make_request` reports unrecoverable failure (`None`,
covering exhausted retries, redirects and unclassified HTTP errors) the
result is metadata `null` with the `error` classification, and in every case
the classification is one of the six documented ones. -/
theorem get_subreddit_info_error_spec (outcomes : Nat → HttpOutcome)
    (fuel : Nat) (st : ClientState)
    (h : (make_request outcomes fuel st).1 = ReqResult.none) :
    (get_subreddit_info outcomes fuel st).1 = (Option.none, "error") ∧
    ((get_subreddit_info outcomes fuel st).1.2 = "active" ∨
     (get_subreddit_info outcomes fuel st).1.2 = "private" ∨
     (get_subreddit_info outcomes fuel st).1.2 = "quarantined" ∨
     (get_subreddit_info outcomes fuel st).1.2 = "deleted" ∨
     (get_subreddit_info outcomes fuel st).1.2 = "notfound" ∨
     (get_subreddit_info outcomes fuel st).1.2 = "error") := by
  have h1 : (get_subreddit_info outcomes fuel st).1 =
      classify_info (make_request outcomes fuel st).1 := rfl
  constructor
  · rw [h1, h]
    rfl
  · rw [h1, h]
    right; right; right; right; right
    rfl

/-- Witness for `get_subreddit_info_error_spec`: a stream of transport
failures exhausts the three retries. -/
theorem get_subreddit_info_error_spec_witness :
    ((make_request (fun _ => HttpOutcome.transportError) 3 ClientState.init).1 =
      ReqResult.none) ∧
    ((get_subreddit_info (fun _ => HttpOutcome.transportError) 3 ClientState.init).1 =
      (Option.none, "error") ∧
    ((get_subreddit_info (fun _ => HttpOutcome.transportError) 3 ClientState.init).1.2 = "active" ∨
     (get_subreddit_info (fun _ => HttpOutcome.transportError) 3 ClientState.init).1.2 = "private" ∨
     (get_subreddit_info (fun _ => HttpOutcome.transportError) 3 ClientState.init).1.2 = "quarantined" ∨
     (get_subreddit_info (fun _ => HttpOutcome.transportError) 3 ClientState.init).1.2 = "deleted" ∨
     (get_subreddit_info (fun _ => HttpOutcome.transportError) 3 ClientState.init).1.2 = "notfound" ∨
     (get_subreddit_info (fun _ => HttpOutcome.transportError) 3 ClientState.init).1.2 = "error")) :=
  ⟨by decide, get_subreddit_info_error_spec (fun _ => HttpOutcome.transportError) 3
    ClientState.init (by decide)⟩

/-! ## C4: 429 handling -/

/-- C4 counterexample: prefixing a stream of transport failures with a
single 429 reduces the number of transport attempts made under
`max_retries = 3` from 3 to 2 — the 429 reissue does consume retry budget
(while the 429 counter increments by exactly 1). -/
theorem rate_limited_budget_counterexample :
    (make_request (fun n => if n = 0 then HttpOutcome.rateLimited (Option.some 5)
      else HttpOutcome.transportError) 3 ClientState.init).2.failed_requests = 2 ∧
    (make_request (fun _ => HttpOutcome.transportError) 3
      ClientState.init).2.failed_requests = 3 ∧
    (make_request (fun n => if n = 0 then HttpOutcome.rateLimited (Option.some 5)
      else HttpOutcome.transportError) 3 ClientState.init).2.rate_limit_hits = 1 ∧
    (2 : Nat) ≠ 3 := by
  exact ⟨by decide, by decide, by decide, by decide⟩

/-- Helper for C4: the event log produced by the `_make_request` loop — the
429 counter increments exactly once per 429 response, every 429 response is
immediately followed by the `Retry-After` sleep, every response (429s
included) pairs with one issued request, and the number of requests is
bounded by the attempt budget. -/
theorem make_request_loop_429_events (outcomes : Nat → HttpOutcome)
    (fuel : Nat) : ∀ (attempt : Nat) (st : ClientState),
    ∃ dlog : List CEvent,
      (make_request_loop outcomes attempt fuel st).2.log = st.log ++ dlog ∧
      sleep429_ok dlog = true ∧
      (make_request_loop outcomes attempt fuel st).2.rate_limit_hits =
        st.rate_limit_hits + dlog.countP CEvent.is429 ∧
      dlog.countP CEvent.isRequest = dlog.countP CEvent.isResponse ∧
      dlog.countP CEvent.isRequest ≤ fuel := by
  induction fuel with
  | zero =>
    intro attempt st
    exact ⟨[], by simp [make_request_loop], rfl, by simp [make_request_loop], rfl, by simp⟩
  | succ n ih =>
    intro attempt st
    cases houtcome : outcomes attempt with
    | ok body =>
      refine ⟨[.request, .response (.ok body)], ?_, ?_, ?_, ?_, ?_⟩ <;>
        simp [make_request_loop, houtcome, sleep429_ok, CEvent.is429,
          CEvent.isRequest, CEvent.isResponse, List.countP_cons]
    | redirect =>
      refine ⟨[.request, .response .redirect], ?_, ?_, ?_, ?_, ?_⟩ <;>
        simp [make_request_loop, houtcome, sleep429_ok, CEvent.is429,
          CEvent.isRequest, CEvent.isResponse, List.countP_cons]
    | notFound =>
      refine ⟨[.request, .response .notFound], ?_, ?_, ?_, ?_, ?_⟩ <;>
        simp [make_request_loop, houtcome, sleep429_ok, CEvent.is429,
          CEvent.isRequest, CEvent.isResponse, List.countP_cons]
    | forbidden =>
      refine ⟨[.request, .response .forbidden], ?_, ?_, ?_, ?_, ?_⟩ <;>
        simp [make_request_loop, houtcome, sleep429_ok, CEvent.is429,
          CEvent.isRequest, CEvent.isResponse, List.countP_cons]
    | otherHttpError =>
      refine ⟨[.request, .response .otherHttpError], ?_, ?_, ?_, ?_, ?_⟩ <;>
        simp [make_request_loop, houtcome, sleep429_ok, CEvent.is429,
          CEvent.isRequest, CEvent.isResponse, List.countP_cons]
    | rateLimited ra =>
      obtain ⟨dlog, hlog, hok, hhits, hcnt, hle⟩ := ih (attempt + 1)
        { st with total_requests := st.total_requests + 1,
                  rate_limit_hits := st.rate_limit_hits + 1,
                  log := st.log ++ [.request, .response (.rateLimited ra),
                    .sleepRetryAfter (ra.getD 60)] }
      refine ⟨[.request, .response (.rateLimited ra),
        .sleepRetryAfter (ra.getD 60)] ++ dlog, ?_, ?_, ?_, ?_, ?_⟩
      · simp only [make_request_loop, houtcome]
        rw [hlog]
        simp
      · simpa [sleep429_ok] using hok
      · simp only [make_request_loop, houtcome]
        rw [hhits]
        simp [List.countP_append, List.countP_cons, CEvent.is429] <;> omega
      · simp [List.countP_append, List.countP_cons, CEvent.isRequest,
          CEvent.isResponse, hcnt]
      · simp [List.countP_append, List.countP_cons, CEvent.isRequest] <;> omega
    | unauthorized =>
      obtain ⟨dlog, hlog, hok, hhits, hcnt, hle⟩ := ih (attempt + 1)
        { st with total_requests := st.total_requests + 1,
                  log := st.log ++ [.request, .response .unauthorized] }
      refine ⟨[.request, .response .unauthorized] ++ dlog, ?_, ?_, ?_, ?_, ?_⟩
      · simp only [make_request_loop, houtcome]
        rw [hlog]
        simp
      · simpa [sleep429_ok] using hok
      · simp only [make_request_loop, houtcome]
        rw [hhits]
        simp [List.countP_append, List.countP_cons, CEvent.is429] <;> omega
      · simp [List.countP_append, List.countP_cons, CEvent.isRequest,
          CEvent.isResponse, hcnt]
      · simp [List.countP_append, List.countP_cons, CEvent.isRequest] <;> omega
    | serverError =>
      obtain ⟨dlog, hlog, hok, hhits, hcnt, hle⟩ := ih (attempt + 1)
        { st with total_requests := st.total_requests + 1,
                  failed_requests := st.failed_requests + 1,
                  log := st.log ++ [.request, .response .serverError, .sleepBackoff] }
      refine ⟨[.request, .response .serverError, .sleepBackoff] ++ dlog, ?_, ?_, ?_, ?_, ?_⟩
      · simp only [make_request_loop, houtcome]
        rw [hlog]
        simp
      · simpa [sleep429_ok] using hok
      · simp only [make_request_loop, houtcome]
        rw [hhits]
        simp [List.countP_append, List.countP_cons, CEvent.is429] <;> omega
      · simp [List.countP_append, List.countP_cons, CEvent.isRequest,
          CEvent.isResponse, hcnt]
      · simp [List.countP_append, List.countP_cons, CEvent.isRequest] <;> omega
    | transportError =>
      by_cases hn : n = 0
      · refine ⟨[.request, .response .transportError], ?_, ?_, ?_, ?_, ?_⟩ <;>
          simp [make_request_loop, houtcome, hn, sleep429_ok, CEvent.is429,
            CEvent.isRequest, CEvent.isResponse, List.countP_cons]
      · obtain ⟨dlog, hlog, hok, hhits, hcnt, hle⟩ := ih (attempt + 1)
          { st with failed_requests := st.failed_requests + 1,
                    log := st.log ++ [.request, .response .transportError, .sleepBackoff] }
        refine ⟨[.request, .response .transportError, .sleepBackoff] ++ dlog,
          ?_, ?_, ?_, ?_, ?_⟩
        · simp only [make_request_loop, houtcome]
          rw [if_neg hn, hlog]
          simp
        · simpa [sleep429_ok] using hok
        · simp only [make_request_loop, houtcome]
          rw [if_neg hn, hhits]
          simp [List.countP_append, List.countP_cons, CEvent.is429] <;> omega
        · simp [List.countP_append, List.countP_cons, CEvent.isRequest,
            CEvent.isResponse, hcnt]
        · simp [List.countP_append, List.countP_cons, CEvent.isRequest] <;> omega

/-- C4 (amended): for every outcome stream, `_make_request` sleeps exactly
the effective `Retry-After` duration immediately after each 429 response and
before the reissued request, the 429 counter increments by exactly one per
429 response — but every 429 reissue consumes one attempt of the shared
`max_retries` budget, which bounds the total number of requests issued. -/
theorem make_request_429_spec (outcomes : Nat → HttpOutcome)
    (max_retries : Nat) (st : ClientState) :
    ∃ dlog : List CEvent,
      (make_request outcomes max_retries st).2.log = st.log ++ dlog ∧
      sleep429_ok dlog = true ∧
      (make_request outcomes max_retries st).2.rate_limit_hits =
        st.rate_limit_hits + dlog.countP CEvent.is429 ∧
      dlog.countP CEvent.isRequest = dlog.countP CEvent.isResponse ∧
      dlog.countP CEvent.isRequest ≤ max_retries :=
  make_request_loop_429_events outcomes max_retries 0 st

/-! ## C1: the sliding-window invariant at the horizon boundary -/

/-- C1 (the code violates its stated invariant): with the default
capacities (60/min, 15/10 s, 3/s), four acquire iterations at simulated
times 0, 0, 0 and 1 are all granted.  At time 1 the 1-second window still
holds the three grants from time 0: `_cleanup_window` keeps the entry at
exactly `now - 1` (the pop condition is strict), while `_get_wait_time`
then returns `(oldest + 1) - now = 0`, which passes the `wait_time <= 0`
grant check.  The window afterwards holds 4 recorded timestamps inside its
1-second trailing horizon — one more than its capacity 3. -/
theorem rate_limiter_horizon_boundary_bug :
    (rl_run ⟨60, 15, 3⟩ [(0, 0), (0, 0), (0, 0), (1, 1)] RLState.init).1 =
      [0, 0, 0, 1] ∧
    (rl_run ⟨60, 15, 3⟩ [(0, 0), (0, 0), (0, 0), (1, 1)] RLState.init).2.window_1s =
      [0, 0, 0, 1] ∧
    (∀ t ∈ (rl_run ⟨60, 15, 3⟩ [(0, 0), (0, 0), (0, 0), (1, 1)]
      RLState.init).2.window_1s, (1 : ℚ) - 1 ≤ t ∧ t ≤ 1) ∧
    (rl_run ⟨60, 15, 3⟩ [(0, 0), (0, 0), (0, 0), (1, 1)]
      RLState.init).2.window_1s.length = 4 ∧
    3 < 4 := by
  have h : rl_run ⟨60, 15, 3⟩ [(0, 0), (0, 0), (0, 0), (1, 1)] RLState.init =
      ([0, 0, 0, 1],
        ⟨[0, 0, 0, 1], [0, 0, 0, 1], [0, 0, 0, 1], 4, 0, 0⟩) := by
    norm_num [rl_run, rl_step, get_wait_time, pruneState, cleanup_window,
      RLState.init, List.dropWhile]
  rw [h]
  refine ⟨rfl, rfl, ?_, rfl, by norm_num⟩
  intro t ht
  simp only [List.mem_cons, List.not_mem_nil, or_false] at ht
  rcases ht with rfl | rfl | rfl | rfl <;> norm_num

/-! ## C9: a timed-out `acquire` leaves the grant state unchanged -/

/-- Helper: the state after a non-granting loop iteration is the pruned
state with `requests_blocked` incremented. -/
theorem rl_step_blocked (cfg : RLConfig) (start now1 now2 : ℚ) (st : RLState)
    (h : (rl_step cfg start now1 now2 st).1 = false) :
    (rl_step cfg start now1 now2 st).2.2 =
      { pruneState now1 st with requests_blocked := st.requests_blocked + 1 } := by
  simp only [rl_step] at h ⊢
  split_ifs at h ⊢ with hw
  rfl

/-- C9 (confirmed): whenever `acquire(timeout)` returns timed-out (`False`),
no timestamp has been appended to any window (each final window is a suffix
of the initial one, every removed entry having expired at one of the prune
times), `total_requests` and `total_wait_time` are unchanged, and only
`requests_blocked` has increased. -/
theorem acquire_timeout_state_spec (cfg : RLConfig) (timeout : Option ℚ)
    (start : ℚ) (times : List (ℚ × ℚ)) (st : RLState)
    (h : (acquire cfg timeout start times st).1 = some false) :
    ((acquire cfg timeout start times st).2.window_60s <:+ st.window_60s) ∧
    ((acquire cfg timeout start times st).2.window_10s <:+ st.window_10s) ∧
    ((acquire cfg timeout start times st).2.window_1s <:+ st.window_1s) ∧
    (acquire cfg timeout start times st).2.total_requests = st.total_requests ∧
    (acquire cfg timeout start times st).2.total_wait_time = st.total_wait_time ∧
    st.requests_blocked < (acquire cfg timeout start times st).2.requests_blocked ∧
    (∀ t ∈ st.window_60s, t ∉ (acquire cfg timeout start times st).2.window_60s →
      ∃ p ∈ times, t < p.1 - 60) ∧
    (∀ t ∈ st.window_10s, t ∉ (acquire cfg timeout start times st).2.window_10s →
      ∃ p ∈ times, t < p.1 - 10) ∧
    (∀ t ∈ st.window_1s, t ∉ (acquire cfg timeout start times st).2.window_1s →
      ∃ p ∈ times, t < p.1 - 1) := by
  induction times generalizing st with
  | nil => simp [acquire] at h
  | cons q rest ih =>
    obtain ⟨now1, now2⟩ := q
    by_cases hg : (rl_step cfg start now1 now2 st).1 = true
    · rw [show acquire cfg timeout start ((now1, now2) :: rest) st =
          (some true, (rl_step cfg start now1 now2 st).2.2) by
        simp only [acquire, if_pos hg]] at h
      simp at h
    · have hg' : (rl_step cfg start now1 now2 st).1 = false := by
        simpa using hg
      have hstep := rl_step_blocked cfg start now1 now2 st hg'
      have hdrop60 : ∀ t ∈ st.window_60s,
          t ∉ ((rl_step cfg start now1 now2 st).2.2).window_60s → t < now1 - 60 := by
        intro t ht hnt
        rw [hstep] at hnt
        have hsplit := List.takeWhile_append_dropWhile
          (fun s => decide (s < now1 - 60)) st.window_60s
        rw [← hsplit] at ht
        rcases List.mem_append.1 ht with htk | hdr
        · simpa using List.mem_takeWhile_imp htk
        · exact absurd hdr hnt
      have hdrop10 : ∀ t ∈ st.window_10s,
          t ∉ ((rl_step cfg start now1 now2 st).2.2).window_10s → t < now1 - 10 := by
        intro t ht hnt
        rw [hstep] at hnt
        have hsplit := List.takeWhile_append_dropWhile
          (fun s => decide (s < now1 - 10)) st.window_10s
        rw [← hsplit] at ht
        rcases List.mem_append.1 ht with htk | hdr
        · simpa using List.mem_takeWhile_imp htk
        · exact absurd hdr hnt
      have hdrop1 : ∀ t ∈ st.window_1s,
          t ∉ ((rl_step cfg start now1 now2 st).2.2).window_1s → t < now1 - 1 := by
        intro t ht hnt
        rw [hstep] at hnt
        have hsplit := List.takeWhile_append_dropWhile
          (fun s => decide (s < now1 - 1)) st.window_1s
        rw [← hsplit] at ht
        rcases List.mem_append.1 ht with htk | hdr
        · simpa using List.mem_takeWhile_imp htk
        · exact absurd hdr hnt
      have hsfx60 : ((rl_step cfg start now1 now2 st).2.2).window_60s <:+ st.window_60s := by
        rw [hstep]
        exact List.dropWhile_suffix _
      have hsfx10 : ((rl_step cfg start now1 now2 st).2.2).window_10s <:+ st.window_10s := by
        rw [hstep]
        exact List.dropWhile_suffix _
      have hsfx1 : ((rl_step cfg start now1 now2 st).2.2).window_1s <:+ st.window_1s := by
        rw [hstep]
        exact List.dropWhile_suffix _
      have hcnt : ((rl_step cfg start now1 now2 st).2.2).total_requests = st.total_requests
          ∧ ((rl_step cfg start now1 now2 st).2.2).total_wait_time = st.total_wait_time
          ∧ ((rl_step cfg start now1 now2 st).2.2).requests_blocked
            = st.requests_blocked + 1 := by
        rw [hstep]
        exact ⟨rfl, rfl, rfl⟩
      -- the call either fails fast now or recurses on the blocked state
      have hcases : acquire cfg timeout start ((now1, now2) :: rest) st =
            (some false, (rl_step cfg start now1 now2 st).2.2) ∨
          acquire cfg timeout start ((now1, now2) :: rest) st =
            acquire cfg timeout start rest (rl_step cfg start now1 now2 st).2.2 := by
        cases timeout with
        | none =>
          right
          simp only [acquire, if_neg hg]
        | some tmo =>
          by_cases htmo : tmo < (now2 - start) + (rl_step cfg start now1 now2 st).2.1
          · left
            simp only [acquire, if_neg hg, if_pos htmo]
          · right
            simp only [acquire, if_neg hg, if_neg htmo]
      rcases hcases with heq | heq
      · rw [heq]
        refine ⟨hsfx60, hsfx10, hsfx1, hcnt.1, hcnt.2.1, ?_, ?_, ?_, ?_⟩
        · rw [hcnt.2.2]
          omega
        · intro t ht hnt
          exact ⟨(now1, now2), List.mem_cons_self _ _, hdrop60 t ht hnt⟩
        · intro t ht hnt
          exact ⟨(now1, now2), List.mem_cons_self _ _, hdrop10 t ht hnt⟩
        · intro t ht hnt
          exact ⟨(now1, now2), List.mem_cons_self _ _, hdrop1 t ht hnt⟩
      · rw [heq] at h ⊢
        obtain ⟨i60, i10, i1, itot, iwait, iblk, ie60, ie10, ie1⟩ :=
          ih (rl_step cfg start now1 now2 st).2.2 h
        refine ⟨i60.trans hsfx60, i10.trans hsfx10, i1.trans hsfx1,
          itot.trans hcnt.1, iwait.trans hcnt.2.1, ?_, ?_, ?_, ?_⟩
        · rw [hcnt.2.2] at iblk
          omega
        · intro t ht hnt
          by_cases hmid : t ∈ ((rl_step cfg start now1 now2 st).2.2).window_60s
          · obtain ⟨p, hp, hpe⟩ := ie60 t hmid hnt
            exact ⟨p, List.mem_cons_of_mem _ hp, hpe⟩
          · exact ⟨(now1, now2), List.mem_cons_self _ _, hdrop60 t ht hmid⟩
        · intro t ht hnt
          by_cases hmid : t ∈ ((rl_step cfg start now1 now2 st).2.2).window_10s
          · obtain ⟨p, hp, hpe⟩ := ie10 t hmid hnt
            exact ⟨p, List.mem_cons_of_mem _ hp, hpe⟩
          · exact ⟨(now1, now2), List.mem_cons_self _ _, hdrop10 t ht hmid⟩
        · intro t ht hnt
          by_cases hmid : t ∈ ((rl_step cfg start now1 now2 st).2.2).window_1s
          · obtain ⟨p, hp, hpe⟩ := ie1 t hmid hnt
            exact ⟨p, List.mem_cons_of_mem _ hp, hpe⟩
          · exact ⟨(now1, now2), List.mem_cons_self _ _, hdrop1 t ht hmid⟩

/-- Witness for `acquire_timeout_state_spec`: with a 1-per-second cap and a
saturated window, an `acquire` with timeout 0 fails fast, pruning the
expired entries only. -/
theorem acquire_timeout_state_spec_witness :
    ((acquire ⟨60, 15, 1⟩ (Option.some 0) 0 [(0, 0)]
      ⟨[-100, 0], [-100, 0], [-100, 0], 2, 0, 0⟩).1 = some false) ∧
    ((acquire ⟨60, 15, 1⟩ (Option.some 0) 0 [(0, 0)]
      ⟨[-100, 0], [-100, 0], [-100, 0], 2, 0, 0⟩).2.window_1s <:+ [-100, 0]) ∧
    ((acquire ⟨60, 15, 1⟩ (Option.some 0) 0 [(0, 0)]
      ⟨[-100, 0], [-100, 0], [-100, 0], 2, 0, 0⟩).2.total_requests = 2) ∧
    ((0 : Nat) < (acquire ⟨60, 15, 1⟩ (Option.some 0) 0 [(0, 0)]
      ⟨[-100, 0], [-100, 0], [-100, 0], 2, 0, 0⟩).2.requests_blocked) := by
  have hfalse : (acquire ⟨60, 15, 1⟩ (Option.some 0) 0 [(0, 0)]
      ⟨[-100, 0], [-100, 0], [-100, 0], 2, 0, 0⟩).1 = some false := by
    norm_num [acquire, rl_step, get_wait_time, pruneState, cleanup_window, List.dropWhile]
  have happ := acquire_timeout_state_spec ⟨60, 15, 1⟩ (Option.some 0) 0 [(0, 0)]
    ⟨[-100, 0], [-100, 0], [-100, 0], 2, 0, 0⟩ hfalse
  exact ⟨hfalse, happ.2.2.1, happ.2.2.2.1, happ.2.2.2.2.2.1⟩

/-! ## C8: the interleave transform -/

/-- Helper: `findIdx` finds the least index satisfying the predicate. -/
theorem findIdx_spec (p : String → Bool) :
    ∀ xs : List String, (∃ x ∈ xs, p x = true) →
      ∃ h : xs.findIdx p < xs.length,
        p (xs.get ⟨xs.findIdx p, h⟩) = true ∧
        ∀ i (hi : i < xs.length), i < xs.findIdx p → p (xs.get ⟨i, hi⟩) = false := by
  intro xs
  induction xs with
  | nil =>
    rintro ⟨x, hx, _⟩
    exact absurd hx (List.not_mem_nil x)
  | cons a t ih =>
    rintro ⟨x, hx, hpx⟩
    by_cases hpa : p a = true
    · refine ⟨?_, ?_, ?_⟩
      · rw [List.findIdx_cons, hpa]
        simp
      · simpa [List.findIdx_cons, hpa] using hpa
      · intro i hi hilt
        rw [List.findIdx_cons, hpa] at hilt
        simp at hilt
    · have hxt : x ∈ t := by
        rcases List.mem_cons.1 hx with rfl | hmem
        · exact absurd hpx hpa
        · exact hmem
      obtain ⟨h, hp, hmin⟩ := ih ⟨x, hxt, hpx⟩
      have hpa' : p a = false := by simpa using hpa
      have hidx : (a :: t).findIdx p = t.findIdx p + 1 := by
        rw [List.findIdx_cons, hpa']
        rfl
      refine ⟨?_, ?_, ?_⟩
      · rw [hidx]
        simpa using h
      · have : (a :: t).get ⟨(a :: t).findIdx p, by rw [hidx]; simpa using h⟩ =
            t.get ⟨t.findIdx p, h⟩ := by
          simp [hidx]
        rw [this]
        exact hp
      · intro i hi hilt
        rw [hidx] at hilt
        cases i with
        | zero => exact hpa'
        | succ k =>
          have hk : k < t.length := by simpa using hi
          have : (a :: t).get ⟨k + 1, hi⟩ = t.get ⟨k, hk⟩ := by simp
          rw [this]
          exact hmin k hk (by omega)

/-- Helper: the head of a filtered list is the element at the least index
satisfying the predicate. -/
theorem filter_head_of_least (q : String → Bool) :
    ∀ (l : List String) (j : Nat) (hj : j < l.length),
      (∀ i (hi : i < l.length), i < j → q (l.get ⟨i, hi⟩) = false) →
      q (l.get ⟨j, hj⟩) = true →
      (l.filter q).head? = Option.some (l.get ⟨j, hj⟩) := by
  intro l
  induction l with
  | nil =>
    intro j hj
    exact absurd hj (by simp)
  | cons a t ih =>
    intro j hj hmin hq
    cases j with
    | zero =>
      have : q a = true := hq
      simp [List.filter_cons, this]
    | succ k =>
      have hqa : q a = false := hmin 0 (by simp) (by omega)
      have hk : k < t.length := by simpa using hj
      have hget : (a :: t).get ⟨k + 1, hj⟩ = t.get ⟨k, hk⟩ := by simp
      rw [List.filter_cons, hget]
      simp only [hqa, Bool.false_eq_true, if_neg]
      exact ih k hk
        (fun i hi hilt => by
          have : (a :: t).get ⟨i + 1, by simpa using hi⟩ = t.get ⟨i, hi⟩ := by simp
          rw [← this]
          exact hmin (i + 1) (by simpa using hi) (by omega))
        (by rw [← hget]; exact hq)

/-- Helper: index bridge between a dropped list and the original. -/
theorem get_drop_bridge (l : List String) (idx k i : Nat)
    (hk : k < (l.drop idx).length) (hi : i < l.length) (he : idx + k = i) :
    (l.drop idx).get ⟨k, hk⟩ = l.get ⟨i, hi⟩ := by
  subst he
  simp [List.getElem_drop]

/-- Helper: index bridge between a taken prefix and the original. -/
theorem get_take_bridge (l : List String) (n k : Nat) (hk : k < (l.take n).length) :
    (l.take n).get ⟨k, hk⟩ = l.get ⟨k, by rw [List.length_take] at hk; omega⟩ := by
  simp

/-- Helper: characterisation of the skip-ahead under the loop invariant —
it lands inside the list, on the head of the unconsumed remainder, and every
element before it is already consumed. -/
theorem skip_to_remaining_spec (l acc rem : List String) (idx : Nat)
    (hrem_eq : rem = l.filter (fun x => decide (x ∉ acc)))
    (hidx : ∀ i (hi : i < l.length), i < idx → l.get ⟨i, hi⟩ ∈ acc)
    (hne : rem ≠ []) :
    ∃ hlt : skip_to_remaining l rem idx < l.length,
      rem.head? = Option.some (l.get ⟨skip_to_remaining l rem idx, hlt⟩) ∧
      ∀ i (hi : i < l.length), i < skip_to_remaining l rem idx →
        l.get ⟨i, hi⟩ ∈ acc := by
  subst hrem_eq
  have htake : ∀ x ∈ l.take idx, x ∈ acc := by
    intro x hx
    obtain ⟨k, hk, hke⟩ := List.getElem_of_mem hx
    have hkl : k < l.length := by
      have hk2 := hk
      rw [List.length_take] at hk2
      omega
    have hx2 : l.get ⟨k, hkl⟩ = x := by
      rw [← hke, ← List.get_eq_getElem (l.take idx) ⟨k, hk⟩, get_take_bridge]
    rw [← hx2]
    refine hidx k hkl ?_
    have hk2 := hk
    rw [List.length_take] at hk2
    omega
  have hex : ∃ y ∈ l.drop idx,
      (fun x => decide (x ∈ l.filter (fun z => decide (z ∉ acc)))) y = true := by
    obtain ⟨r0, hr0⟩ := List.exists_mem_of_ne_nil _ hne
    have hr0l : r0 ∈ l := (List.mem_filter.1 hr0).1
    have hr0acc : r0 ∉ acc := by simpa using (List.mem_filter.1 hr0).2
    have hsplit : r0 ∈ l.take idx ++ l.drop idx := by
      rw [List.take_append_drop]
      exact hr0l
    rcases List.mem_append.1 hsplit with htk | hdr
    · exact absurd (htake r0 htk) hr0acc
    · exact ⟨r0, hdr, by simpa using hr0⟩
  obtain ⟨hfi, hfp, hfmin⟩ := findIdx_spec _ (l.drop idx) hex
  have hlt : idx + (l.drop idx).findIdx
      (fun x => decide (x ∈ l.filter (fun z => decide (z ∉ acc)))) < l.length := by
    have hfi2 := hfi
    rw [List.length_drop] at hfi2
    omega
  have hskip : skip_to_remaining l (l.filter (fun x => decide (x ∉ acc))) idx =
      idx + (l.drop idx).findIdx
        (fun x => decide (x ∈ l.filter (fun z => decide (z ∉ acc)))) := rfl
  refine ⟨by rw [hskip]; exact hlt, ?_, ?_⟩
  · -- the head of the remainder is the element at the skip index
    have hmem : l.get ⟨idx + (l.drop idx).findIdx
        (fun x => decide (x ∈ l.filter (fun z => decide (z ∉ acc)))), hlt⟩ ∈
        l.filter (fun x => decide (x ∉ acc)) := by
      rw [← get_drop_bridge l idx _ _ hfi hlt rfl]
      simpa using hfp
    have hq : (fun x => decide (x ∉ acc)) (l.get ⟨idx + (l.drop idx).findIdx
        (fun x => decide (x ∈ l.filter (fun z => decide (z ∉ acc)))), hlt⟩) = true := by
      simpa using (List.mem_filter.1 hmem).2
    have hmin : ∀ i (hi : i < l.length),
        i < idx + (l.drop idx).findIdx
          (fun x => decide (x ∈ l.filter (fun z => decide (z ∉ acc)))) →
        (fun x => decide (x ∉ acc)) (l.get ⟨i, hi⟩) = false := by
      intro i hi hilt
      by_cases hcase : i < idx
      · simpa using hidx i hi hcase
      · have hki : i - idx < (l.drop idx).length := by
          rw [List.length_drop]
          omega
        have hnot := hfmin (i - idx) hki (by omega)
        rw [get_drop_bridge l idx (i - idx) i hki hi (by omega)] at hnot
        have hnmem : l.get ⟨i, hi⟩ ∉ l.filter (fun z => decide (z ∉ acc)) := by
          simpa using hnot
        by_contra hq2
        exact hnmem (List.mem_filter.2 ⟨List.get_mem l i hi, by simpa using hq2⟩)
    exact filter_head_of_least (fun x => decide (x ∉ acc)) l _ hlt hmin hq
  · intro i hi hilt
    rw [hskip] at hilt
    by_cases hcase : i < idx
    · exact hidx i hi hcase
    · have hki : i - idx < (l.drop idx).length := by
        rw [List.length_drop]
        omega
      have hnot := hfmin (i - idx) hki (by omega)
      rw [get_drop_bridge l idx (i - idx) i hki hi (by omega)] at hnot
      have hnmem : l.get ⟨i, hi⟩ ∉ l.filter (fun z => decide (z ∉ acc)) := by
        simpa using hnot
      by_contra hacc
      exact hnmem (List.mem_filter.2 ⟨List.get_mem l i hi, by simpa using hacc⟩)

/-- Helper: erasing an element from the unconsumed remainder of a
duplicate-free list consumes it. -/
theorem erase_filter_notin (l acc : List String) (hnd : l.Nodup) (x : String) :
    (l.filter (fun y => decide (y ∉ acc))).erase x =
      l.filter (fun y => decide (y ∉ acc ++ [x])) := by
  rw [List.Nodup.erase_eq_filter (hnd.filter _) x, List.filter_filter]
  refine List.filter_congr ?_
  intro y _
  by_cases h1 : y ∈ acc <;> by_cases h2 : y = x <;>
    simp [h1, h2, List.mem_append]

/-- Helper: the loop invariant of `_interleave_with_random` — starting from
a consumed prefix `acc` with everything before `idx` consumed and the
remaining set equal to the unconsumed elements of `l` in priority order, the
loop appends a tail that is a permutation of the remainder and alternates
priority picks with oracle picks. -/
theorem interleave_loop_spec (l : List String) (rnd : Nat → List String → String)
    (hnd : l.Nodup) (hrnd : ∀ n xs, xs ≠ [] → rnd n xs ∈ xs) :
    ∀ (fuel idx : Nat) (acc : List String) (draws : Nat) (rem : List String),
      rem = l.filter (fun x => decide (x ∉ acc)) →
      (∀ i (hi : i < l.length), i < idx → l.get ⟨i, hi⟩ ∈ acc) →
      rem.length ≤ fuel →
      ∃ tail,
        interleave_loop l rnd fuel idx rem acc draws = acc ++ tail ∧
        tail.Perm rem ∧
        alternation_ok l acc tail = true := by
  intro fuel
  induction fuel with
  | zero =>
    intro idx acc draws rem hrem_eq hidx hfuel
    have hnil : rem = [] := List.eq_nil_of_length_eq_zero (by omega)
    subst hnil
    exact ⟨[], by simp [interleave_loop], List.Perm.nil, rfl⟩
  | succ n ih =>
    intro idx acc draws rem hrem_eq hidx hfuel
    by_cases hrem : rem = []
    · subst hrem
      exact ⟨[], by simp [interleave_loop], List.Perm.nil, rfl⟩
    · obtain ⟨hlt, hhead, hprev⟩ :=
        skip_to_remaining_spec l acc rem idx hrem_eq hidx hrem
      cases rem with
      | nil => exact absurd rfl hrem
      | cons x t =>
        have hx : x = l.get ⟨skip_to_remaining l (x :: t) idx, hlt⟩ := by
          simpa using hhead
        have hstep : interleave_loop l rnd (n + 1) idx (x :: t) acc draws =
            (if t = [] then acc ++ [x]
            else
              interleave_loop l rnd n (skip_to_remaining l (x :: t) idx + 1)
                (t.erase (rnd draws t)) ((acc ++ [x]) ++ [rnd draws t]) (draws + 1)) := by
          simp only [interleave_loop]
          rw [if_neg (List.cons_ne_nil x t), dif_pos hlt, ← hx, List.erase_cons_head]
        have hnp : next_priority l acc = Option.some x := by
          unfold next_priority
          rw [← hrem_eq]
          rfl
        by_cases htnil : t = []
        · rw [if_pos htnil] at hstep
          subst htnil
          refine ⟨[x], hstep, List.Perm.refl _, ?_⟩
          simp [alternation_ok, hnp]
        · rw [if_neg htnil] at hstep
          have hpick : rnd draws t ∈ t := hrnd draws t htnil
          have ht2 : t = l.filter (fun y => decide (y ∉ acc ++ [x])) := by
            rw [← erase_filter_notin l acc hnd x, ← hrem_eq]
            exact (List.erase_cons_head x t).symm
          have herase2 : t.erase (rnd draws t) =
              l.filter (fun y => decide (y ∉ (acc ++ [x]) ++ [rnd draws t])) := by
            have h1 : t.erase (rnd draws t) =
                (l.filter (fun y => decide (y ∉ acc ++ [x]))).erase (rnd draws t) :=
              congrArg (fun s => s.erase (rnd draws t)) ht2
            rw [h1, erase_filter_notin l (acc ++ [x]) hnd (rnd draws t)]
          have hidx2 : ∀ i (hi : i < l.length),
              i < skip_to_remaining l (x :: t) idx + 1 →
              l.get ⟨i, hi⟩ ∈ (acc ++ [x]) ++ [rnd draws t] := by
            intro i hi hilt
            by_cases hic : i < skip_to_remaining l (x :: t) idx
            · exact List.mem_append.2 (Or.inl (List.mem_append.2 (Or.inl (hprev i hi hic))))
            · have hieq : i = skip_to_remaining l (x :: t) idx := by omega
              subst hieq
              refine List.mem_append.2 (Or.inl (List.mem_append.2 (Or.inr ?_)))
              simp only [List.mem_singleton]
              exact hx.symm
          have hlen2 : (t.erase (rnd draws t)).length = t.length - 1 :=
            List.length_erase_of_mem hpick
          have htpos : 1 ≤ t.length := List.length_pos.2 htnil
          have hfuel2 : (t.erase (rnd draws t)).length ≤ n := by
            have hfuel1 : (x :: t).length ≤ n + 1 := hfuel
            rw [List.length_cons] at hfuel1
            omega
          obtain ⟨tail, htail_eq, htail_perm, htail_alt⟩ :=
            ih (skip_to_remaining l (x :: t) idx + 1) ((acc ++ [x]) ++ [rnd draws t])
              (draws + 1) (t.erase (rnd draws t)) herase2 hidx2 hfuel2
          rw [htail_eq] at hstep
          refine ⟨x :: rnd draws t :: tail, ?_, ?_, ?_⟩
          · rw [hstep]
            simp
          · refine List.Perm.cons _ ?_
            exact (List.Perm.cons _ htail_perm).trans (List.perm_cons_erase hpick).symm
          · have hp2 : rnd draws t ∈ l.filter (fun y => decide (y ∉ acc ++ [x])) := by
              rw [← ht2]
              exact hpick
            have hpl : rnd draws t ∈ l := (List.mem_filter.1 hp2).1
            have hpx : rnd draws t ∉ acc ∧ rnd draws t ≠ x := by
              have h2 := (List.mem_filter.1 hp2).2
              simp [List.mem_append] at h2
              exact h2
            have hacc2 : (acc ++ [x]) ++ [rnd draws t] = acc ++ [x, rnd draws t] := by
              simp
            rw [hacc2] at htail_alt
            simp [alternation_ok, hnp, hpl, hpx.1, hpx.2, htail_alt]

/-- C8 (confirmed): for a list of 10 distinct items and any pick oracle
that returns an element of the remaining set, `_interleave_with_random`
returns a permutation of its input containing every element exactly once,
its first element is the first priority item, and positions alternate
between the next not-yet-consumed priority item and a not-yet-consumed pick
from the remaining set. -/
theorem interleave_with_random_spec (l : List String)
    (rnd : Nat → List String → String)
    (hnd : l.Nodup) (hlen : l.length = 10)
    (hrnd : ∀ n xs, xs ≠ [] → rnd n xs ∈ xs) :
    (interleave_with_random l rnd).Perm l ∧
    (interleave_with_random l rnd).head? = l.head? ∧
    alternation_ok l [] (interleave_with_random l rnd) = true := by
  have hguard : ¬ l.length ≤ 2 := by omega
  have hfil : l = l.filter (fun x => decide (x ∉ ([] : List String))) := by
    refine (List.filter_eq_self.2 ?_).symm
    intro x _
    simp
  have hded : l.dedup = l := List.dedup_eq_self.2 hnd
  have hrun : interleave_with_random l rnd =
      interleave_loop l rnd l.length 0 l [] 0 := by
    rw [interleave_with_random, if_neg hguard, hded]
  obtain ⟨tail, heq, hperm, halt⟩ :=
    interleave_loop_spec l rnd hnd hrnd l.length 0 [] 0 l hfil
      (fun i hi hilt => absurd hilt (Nat.not_lt_zero i))
      le_rfl
  have hout : interleave_with_random l rnd = tail := by
    rw [hrun, heq]
    simp
  refine ⟨?_, ?_, ?_⟩
  · rw [hout]
    exact hperm
  · rw [hout]
    cases tail with
    | nil =>
      have hnil : l = [] := hperm.symm.eq_nil
      rw [hnil] at hlen
      simp at hlen
    | cons p rest =>
      have hp : next_priority l [] = Option.some p := by
        cases rest with
        | nil => simpa [alternation_ok] using halt
        | cons q rest2 =>
          simp [alternation_ok] at halt
          exact halt.1.1.1
      have hnp2 : next_priority l [] = l.head? := by
        unfold next_priority
        rw [← hfil]
      rw [← hnp2, hp]
      rfl
  · rw [hout]
    exact halt

/-- Witness for `interleave_with_random_spec` on ten concrete items with the
head-picking oracle. -/
theorem interleave_with_random_spec_witness :
    (["a", "b", "c", "d", "e", "f", "g", "h", "i", "j"] : List String).Nodup ∧
    (["a", "b", "c", "d", "e", "f", "g", "h", "i", "j"] : List String).length = 10 ∧
    (∀ n xs, xs ≠ [] → (fun (_ : Nat) (ys : List String) => ys.headD "") n xs ∈ xs) ∧
    ((interleave_with_random ["a", "b", "c", "d", "e", "f", "g", "h", "i", "j"]
        (fun _ ys => ys.headD "")).Perm
        ["a", "b", "c", "d", "e", "f", "g", "h", "i", "j"] ∧
      (interleave_with_random ["a", "b", "c", "d", "e", "f", "g", "h", "i", "j"]
        (fun _ ys => ys.headD "")).head? =
        (["a", "b", "c", "d", "e", "f", "g", "h", "i", "j"] : List String).head? ∧
      alternation_ok ["a", "b", "c", "d", "e", "f", "g", "h", "i", "j"] []
        (interleave_with_random ["a", "b", "c", "d", "e", "f", "g", "h", "i", "j"]
          (fun _ ys => ys.headD "")) = true) :=
  ⟨by decide, by decide,
    fun n xs hxs => by
      cases xs with
      | nil => exact absurd rfl hxs
      | cons a tl => exact List.mem_cons_self a tl,
    interleave_with_random_spec ["a", "b", "c", "d", "e", "f", "g", "h", "i", "j"]
      (fun _ ys => ys.headD "") (by decide) (by decide)
      (fun n xs hxs => by
        cases xs with
        | nil => exact absurd rfl hxs
        | cons a tl => exact List.mem_cons_self a tl)⟩

end Scanner
